import Mathlib

/-!
Verification of the `cmd/block` utility of the txvm repository.

The single source file `src/cmd/block/block.go` is command-line glue around
the txvm libraries (`protocol`, `bc`, `validation`, `state`).  The control
flow of each subcommand (`validate`, `sign`, `new`, `build`) is embedded
here directly from the source.  Library functions whose code is not part of
the source tree (e.g. `validation.Block`, `bc.SignBlock`,
`protocol.NewBlockBuilder`) are either taken as abstract function
parameters — when a claim is about the glue's control flow only — or
modelled from the specification, with a doc comment saying so.

Byte strings are `List Nat`; Go `int` is `Int`; Go `uint64` is `Nat`.
-/

namespace TxvmBlock

/-- Authorization predicate: a quorum-of-N public-key multisig condition
(`bc.Predicate`).  `quorum` is a Go `int64`. -/
structure Predicate where
  version : Nat
  quorum : Int
  pubkeys : List (List Nat)
  deriving Repr, DecidableEq

/-- Block header (`bc.BlockHeader`), fields as listed in the data model. -/
structure BlockHeader where
  version : Nat
  height : Nat
  previousBlockId : Option (List Nat)
  timestampMs : Nat
  runlimit : Int
  refsCount : Nat
  transactionsRoot : List Nat
  contractsRoot : List Nat
  noncesRoot : List Nat
  nextPredicate : Predicate
  deriving Repr, DecidableEq

/-- A transaction record (`bc.RawTx` / `bc.Tx` as built by `bc.NewTx`). -/
structure Tx where
  program : List Nat
  version : Nat
  runlimit : Int
  deriving Repr, DecidableEq

/-- An unsigned block (`bc.UnsignedBlock`): header plus transaction list. -/
structure UnsignedBlock where
  header : BlockHeader
  transactions : List Tx
  deriving Repr, DecidableEq

/-- A signed block (`bc.Block`): an unsigned block plus the index-aligned
sparse signature list (`Arguments`); `none` is an abstaining signer. -/
structure Block where
  unsigned : UnsignedBlock
  arguments : List (Option (List Nat))
  deriving Repr, DecidableEq

/-- Outcome of a CLI run: `ok` means the command returns normally (exit
status 0); `fail msg` means it prints `msg` to stderr and calls
`os.Exit(1)`. -/
inductive RunResult where
  | ok
  | fail (msg : String)
  deriving Repr, DecidableEq

/-- Process exit status of a `RunResult`. -/
def RunResult.exitCode : RunResult → Nat
  | .ok => 0
  | .fail _ => 1

/-- The `validate` subcommand (`block.go` lines 192–252), after the I/O
boundary: the input block is already decoded, `prev` is `some p` when the
`-prev` flag carries a header and `none` when the flag is empty.  The three
library checks `validation.BlockOnly`, `validation.Block` and
`validation.BlockSig` are abstract parameters returning `some errMsg` on
failure and `none` on success. -/
def validate
    (blockOnly : UnsignedBlock → Option String)
    (blockValid : UnsignedBlock → BlockHeader → Option String)
    (blockSig : Block → Predicate → Option String)
    (prev : Option BlockHeader) (noSig noPrev : Bool) (b : Block) :
    RunResult :=
  match prev with
  | some p =>
    match blockValid b.unsigned p with
    | some e => .fail e
    | none =>
      if noSig then .ok
      else
        match blockSig b p.nextPredicate with
        | some e => .fail e
        | none => .ok
  | none =>
    if b.unsigned.header.height == 1 || noPrev then
      match blockOnly b.unsigned with
      | some e => .fail e
      | none => .ok
    else .fail "previous blockheader not supplied"

/-- Value of a single hexadecimal digit, as in `encoding/hex`. -/
def hexDigit (c : Char) : Option Nat :=
  if '0' ≤ c ∧ c ≤ '9' then some (c.toNat - '0'.toNat)
  else if 'a' ≤ c ∧ c ≤ 'f' then some (c.toNat - 'a'.toNat + 10)
  else if 'A' ≤ c ∧ c ≤ 'F' then some (c.toNat - 'A'.toNat + 10)
  else none

/-- `hex.DecodeString` on a character list: two hex digits per byte;
odd length or a non-hex character is an error (`none`). -/
def hexDecodeAux : List Char → Option (List Nat)
  | [] => some []
  | [_] => none
  | c1 :: c2 :: rest =>
    match hexDigit c1, hexDigit c2, hexDecodeAux rest with
    | some h, some l, some bs => some ((16 * h + l) :: bs)
    | _, _, _ => none

/-- `hex.DecodeString` (`encoding/hex`). -/
def hexDecode (s : String) : Option (List Nat) :=
  hexDecodeAux s.data

/-- Errors of the `new` subcommand (each is a `panic` in the source). -/
inductive NewBlockError where
  | badHex
  | badPubkeyLength (n : Nat)
  | badQuorum
  deriving Repr, DecidableEq

/-- The pubkey-decoding loop of `newBlock` (`block.go` lines 116–125):
hex-decode each argument, failing on a decode error or on a decoded length
other than `ed25519.PublicKeySize` (32). -/
def decodePubkeys : List String → Except NewBlockError (List (List Nat))
  | [] => .ok []
  | s :: rest =>
    match hexDecode s with
    | none => .error .badHex
    | some b =>
      if b.length ≠ 32 then .error (.badPubkeyLength b.length)
      else
        match decodePubkeys rest with
        | .error e => .error e
        | .ok bs => .ok (b :: bs)

/-- Modelled from the spec: `protocol.NewInitialBlock` makes the genesis
block — height 1, no previous block id, empty roots, and a next predicate
holding the given quorum and pubkeys (predicate version 1).  Its code is
not under `src/`; only the field population needed by the claims is
modelled. -/
def newInitialBlock (pubkeys : List (List Nat)) (quorum : Int)
    (timestampMs : Nat) : Block :=
  { unsigned :=
      { header :=
          { version := 3, height := 1, previousBlockId := none,
            timestampMs := timestampMs, runlimit := 0, refsCount := 0,
            transactionsRoot := [], contractsRoot := [], noncesRoot := [],
            nextPredicate := ⟨1, quorum, pubkeys⟩ },
        transactions := [] },
    arguments := [] }

/-- The `new` subcommand (`block.go` lines 105–152), after the I/O
boundary: `quorum` is the `-quorum` flag, `pubkeysHex` the positional
arguments, `timestampMs` the resolved timestamp.  Decode the pubkeys,
reject a quorum outside `[0, len(pubkeys)]`, promote a zero quorum to
`len(pubkeys)`, and create the initial block. -/
def newBlock (quorum : Int) (pubkeysHex : List String) (timestampMs : Nat) :
    Except NewBlockError Block :=
  match decodePubkeys pubkeysHex with
  | .error e => .error e
  | .ok pubkeys =>
    if quorum < 0 ∨ quorum > (pubkeys.length : Int) then .error .badQuorum
    else
      let q := if quorum = 0 then (pubkeys.length : Int) else quorum
      .ok (newInitialBlock pubkeys q timestampMs)

/-- The signer callback passed by `sign` to `bc.SignBlock` (`block.go`
lines 176–183): if the positional argument at `idx` is non-empty,
hex-decode it as a private key (a decode error panics: outer `none`) and
return an ed25519 signature over `hash`; an empty or missing argument
abstains (inner `none`).  `Go`'s `fs.Arg(idx)` is `""` out of range, hence
`getD idx ""`.  `ed` is the external `ed25519.Sign`. -/
def signerCallback (ed : List Nat → List Nat → List Nat)
    (keyArgs : List String) (hash : List Nat) (idx : Nat) :
    Option (Option (List Nat)) :=
  let arg := keyArgs.getD idx ""
  if arg ≠ "" then
    match hexDecode arg with
    | some prv => some (some (ed prv hash))
    | none => none
  else some none

/-- Run the signer callback on each index of a list, collecting the sparse
signature list; any callback error aborts the whole collection. -/
def collectSigs (signerFn : Nat → Option (Option (List Nat))) :
    List Nat → Option (List (Option (List Nat)))
  | [] => some []
  | i :: rest =>
    match signerFn i, collectSigs signerFn rest with
    | some s, some restS => some (s :: restS)
    | _, _ => none

/-- Modelled from the spec: `bc.SignBlock` (§4.4), whose code is not under
`src/` — for each index `i` of the previous header's
`NextPredicate.Pubkeys` it invokes `signerFn i`; a returned abstain leaves
that signature slot absent; the results are assembled by index into the
signed block. -/
def signBlock (ub : UnsignedBlock) (prev : BlockHeader)
    (signerFn : Nat → Option (Option (List Nat))) : Option Block :=
  (collectSigs signerFn (List.range prev.nextPredicate.pubkeys.length)).map
    (fun sigs => { unsigned := ub, arguments := sigs })

/-- The `sign` subcommand (`block.go` lines 154–190), after the I/O
boundary: the previous header and the input block are decoded, `keyArgs`
are the positional private-key hex arguments.  The signing payload `hash`
is the content hash of the input block's header (`block.Hash()`), taken
before `bc.SignBlock` attaches any signature; `blockHash` is that external
hash function, abstract here. -/
def signRun (ed : List Nat → List Nat → List Nat)
    (blockHash : BlockHeader → List Nat)
    (prev : BlockHeader) (keyArgs : List String) (b : Block) :
    Option Block :=
  let hash := blockHash b.unsigned.header
  signBlock b.unsigned prev (signerCallback ed keyArgs hash)

/-- The chain state consumed and produced by the builder
(`state.Snapshot`): content payload plus the timestamp, height and id of
the latest committed block. -/
structure Snapshot where
  data : List Nat
  prevHash : List Nat
  timestampMs : Nat
  height : Nat
  deriving Repr, DecidableEq

/-- A builder session after `Start` (`protocol.BlockBuilder` in state
`Started`): the working snapshot, the block timestamp and height, the
transactions added so far (in order), and the runlimit accumulator. -/
structure BuilderState where
  snapshot : Snapshot
  timestampMs : Nat
  height : Nat
  txs : List Tx
  runlimit : Int
  deriving Repr, DecidableEq

/-- External collaborators of `build`, abstract parameters of the
embedding: the transaction VM, hashing, serialization, file writing and
time parsing.  `snapshotBytes` mirrors Go's two-value return of
`Snapshot.Bytes`: the byte string together with an optional error. -/
structure BuildEnv where
  applyTx : Snapshot → Tx → Option (Snapshot × Int)
  txHash : Tx → List Nat
  merkleRoot : List (List Nat) → List Nat
  blockBytes : Block → List Nat
  snapshotBytes : Snapshot → List Nat × Option String
  writeFile : List Nat → Option String
  parseTime : String → Option Nat
  ceiling : Int
  nextPred : Predicate

/-- Modelled from the spec: builder `Start` (§4.3), code not under `src/`
— fails with a stale-timestamp error when the timestamp does not exceed
the snapshot's, else opens a session at height `snapshot.height + 1` with
no transactions and runlimit 0. -/
def bbStart (snap : Snapshot) (timestampMs : Nat) :
    Except String BuilderState :=
  if timestampMs ≤ snap.timestampMs then .error "stale timestamp"
  else .ok { snapshot := snap, timestampMs := timestampMs,
             height := snap.height + 1, txs := [], runlimit := 0 }

/-- Modelled from the spec: builder `AddTx` (§4.3), code not under `src/`
— runs the transaction on the working snapshot through the VM
collaborator, fails if the VM fails or the cumulative runlimit would
exceed the ceiling, else applies the effects, appends the transaction to
the leaf list and accumulates the cost. -/
def bbAddTx (env : BuildEnv) (st : BuilderState) (tx : Tx) :
    Except String BuilderState :=
  match env.applyTx st.snapshot tx with
  | none => .error "vm error"
  | some (s2, cost) =>
    if env.ceiling < st.runlimit + cost then .error "runlimit exceeded"
    else .ok { st with
                 snapshot := s2,
                 txs := st.txs ++ [tx],
                 runlimit := st.runlimit + cost }

/-- The transaction loop of `build` (`block.go` lines 77–87): one `AddTx`
per command-line file argument, in argument order; `txs` holds the decoded
file contents in that order, and any failure aborts the run. -/
def buildLoop (env : BuildEnv) (st : BuilderState) :
    List Tx → Except String BuilderState
  | [] => .ok st
  | t :: ts =>
    match bbAddTx env st t with
    | .error e => .error e
    | .ok st2 => buildLoop env st2 ts

/-- Modelled from the spec: builder `Build` (§4.3), code not under `src/`
— computes the transactions root over the accumulated leaves in order,
finishes the header and returns it with the new snapshot. -/
def bbBuild (env : BuildEnv) (st : BuilderState) :
    UnsignedBlock × Snapshot :=
  ({ header :=
       { version := 3, height := st.height,
         previousBlockId := some st.snapshot.prevHash,
         timestampMs := st.timestampMs, runlimit := st.runlimit,
         refsCount := st.txs.length,
         transactionsRoot := env.merkleRoot (st.txs.map env.txHash),
         contractsRoot := env.merkleRoot [st.snapshot.data],
         noncesRoot := env.merkleRoot [st.snapshot.data],
         nextPredicate := env.nextPred },
     transactions := st.txs },
   { st.snapshot with
       timestampMs := st.timestampMs,
       height := st.height })

/-- What a `build` run emits: the block bytes written to stdout and, when
`-snapout` is set, the bytes written to the snapshot file. -/
structure BuildOutput where
  stdout : List Nat
  snapFile : Option (List Nat)
  deriving Repr, DecidableEq

/-- The `build` subcommand (`block.go` lines 46–103), after the I/O
boundary: `timeStr` is the `-time` flag (`""` means use the wall clock
`now`), `snapOutSet` says whether `-snapout` was given, `snap` is the
snapshot decoded from stdin and `txs` the transactions decoded from the
argument files in argument order.  Faithful to the source, the error
returned by `newSnapshot.Bytes()` (line 93) is discarded — the `err`
variable is immediately overwritten by the `WriteFile` result — so only
the write error aborts the run. -/
def buildRun (env : BuildEnv) (timeStr : String) (now : Nat)
    (snapOutSet : Bool) (snap : Snapshot) (txs : List Tx) :
    Except String BuildOutput :=
  match (if timeStr = "" then some now else env.parseTime timeStr) with
  | none => .error "bad time"
  | some ts =>
    match bbStart snap ts with
    | .error e => .error e
    | .ok st0 =>
      match buildLoop env st0 txs with
      | .error e => .error e
      | .ok stF =>
        let (ub, newSnap) := bbBuild env stF
        let snapStep : Except String (Option (List Nat)) :=
          if snapOutSet then
            let (bs, _errDropped) := env.snapshotBytes newSnap
            match env.writeFile bs with
            | some e => .error e
            | none => .ok (some bs)
          else .ok none
        match snapStep with
        | .error e => .error e
        | .ok snapFile =>
          .ok { stdout := env.blockBytes ⟨ub, []⟩, snapFile := snapFile }

end TxvmBlock

namespace TxvmBlock

/-- C1: for a block of height 1 with no previous header supplied, `validate`
applies only the structural check `validation.BlockOnly` — its result does
not depend on the linkage or signature checks — and accepts iff the
structural check passes. -/
theorem validate_genesis_structural_only
    (blockOnly : UnsignedBlock → Option String)
    (bv bv2 : UnsignedBlock → BlockHeader → Option String)
    (bs bs2 : Block → Predicate → Option String)
    (noSig noPrev : Bool) (b : Block)
    (h : b.unsigned.header.height = 1) :
    validate blockOnly bv bs none noSig noPrev b =
      validate blockOnly bv2 bs2 none noSig noPrev b ∧
    (validate blockOnly bv bs none noSig noPrev b = .ok ↔
      blockOnly b.unsigned = none) := by
  constructor
  · simp [validate]
  · simp [validate, h]
    cases blockOnly b.unsigned <;> simp

/-- Witness for C1 at a concrete genesis block. -/
theorem validate_genesis_structural_only_witness :
    (let pred : Predicate := ⟨1, 0, []⟩
     let hdr : BlockHeader := ⟨3, 1, none, 1000, 0, 0, [], [], [], pred⟩
     let b : Block := ⟨⟨hdr, []⟩, []⟩
     validate (fun _ => none) (fun _ _ => some "x") (fun _ _ => some "y")
         none false false b =
       validate (fun _ => none) (fun _ _ => none) (fun _ _ => none)
         none false false b ∧
     (validate (fun _ => none) (fun _ _ => some "x") (fun _ _ => some "y")
         none false false b = .ok ↔
       (fun (_ : UnsignedBlock) => (none : Option String)) b.unsigned = none)) :=
  validate_genesis_structural_only (fun _ => none) (fun _ _ => some "x")
    (fun _ _ => none) (fun _ _ => some "y") (fun _ _ => none) false false
    ⟨⟨⟨3, 1, none, 1000, 0, 0, [], [], [], ⟨1, 0, []⟩⟩, []⟩, []⟩ rfl

/-- C2: when a previous header is supplied, `validate` checks linkage via
`validation.Block` and signatures via `validation.BlockSig` against the
previous header's `NextPredicate`; with `-nosig` the signature check is
skipped entirely (the result does not depend on it) while linkage
validation is still performed. -/
theorem validate_with_prev
    (blockOnly : UnsignedBlock → Option String)
    (bv : UnsignedBlock → BlockHeader → Option String)
    (bs bs2 : Block → Predicate → Option String)
    (noPrev : Bool) (p : BlockHeader) (b : Block) :
    (validate blockOnly bv bs (some p) false noPrev b = .ok ↔
      (bv b.unsigned p = none ∧ bs b p.nextPredicate = none)) ∧
    validate blockOnly bv bs (some p) true noPrev b =
      validate blockOnly bv bs2 (some p) true noPrev b ∧
    (validate blockOnly bv bs (some p) true noPrev b = .ok ↔
      bv b.unsigned p = none) := by
  refine ⟨?_, ?_, ?_⟩
  · simp only [validate]
    cases bv b.unsigned p <;> cases bs b p.nextPredicate <;> simp
  · simp only [validate]
    cases bv b.unsigned p <;> simp
  · simp only [validate]
    cases bv b.unsigned p <;> simp

/-- C10: for a block of height greater than 1, with neither a previous
header nor `-noprev` supplied, `validate` performs none of the three checks
(the result is independent of all of them) and fails with
"previous blockheader not supplied" and exit status 1. -/
theorem validate_no_prev_fails
    (bo : UnsignedBlock → Option String)
    (bv : UnsignedBlock → BlockHeader → Option String)
    (bs : Block → Predicate → Option String)
    (noSig : Bool) (b : Block)
    (h : 1 < b.unsigned.header.height) :
    validate bo bv bs none noSig false b =
      .fail "previous blockheader not supplied" ∧
    (validate bo bv bs none noSig false b).exitCode = 1 := by
  have hne : b.unsigned.header.height ≠ 1 := by omega
  constructor
  · simp [validate, hne]
  · simp [validate, hne, RunResult.exitCode]

/-- Witness for C10 at a concrete height-2 block. -/
theorem validate_no_prev_fails_witness :
    (let pred : Predicate := ⟨1, 0, []⟩
     let hdr : BlockHeader := ⟨3, 2, some [0], 1000, 0, 0, [], [], [], pred⟩
     let b : Block := ⟨⟨hdr, []⟩, []⟩
     validate (fun _ => none) (fun _ _ => none) (fun _ _ => none)
         none false false b = .fail "previous blockheader not supplied" ∧
     (validate (fun _ => none) (fun _ _ => none) (fun _ _ => none)
         none false false b).exitCode = 1) :=
  validate_no_prev_fails (fun _ => none) (fun _ _ => none) (fun _ _ => none)
    false ⟨⟨⟨3, 2, some [0], 1000, 0, 0, [], [], [], ⟨1, 0, []⟩⟩, []⟩, []⟩
    (by decide)

/-- If every pubkey argument hex-decodes but some decoded key has a length
other than 32, the decoding loop stops with a bad-pubkey-length error. -/
theorem decodePubkeys_badLength (hexList : List String)
    (h1 : ∀ s ∈ hexList, (hexDecode s).isSome)
    (h2 : ∃ s ∈ hexList, ∃ b, hexDecode s = some b ∧ b.length ≠ 32) :
    ∃ m, m ≠ 32 ∧ decodePubkeys hexList = .error (.badPubkeyLength m) := by
  induction hexList with
  | nil => simp at h2
  | cons s rest ih =>
    obtain ⟨b, hb⟩ := Option.isSome_iff_exists.mp (h1 s (by simp))
    by_cases hlen : b.length = 32
    · obtain ⟨t, ht, c, hc, hclen⟩ := h2
      rcases List.mem_cons.mp ht with rfl | htrest
      · rw [hb] at hc
        exact absurd (Option.some.inj hc ▸ hlen) hclen
      · obtain ⟨m, hm, hdec⟩ :=
          ih (fun u hu => h1 u (List.mem_cons_of_mem _ hu))
            ⟨t, htrest, c, hc, hclen⟩
        refine ⟨m, hm, ?_⟩
        simp only [decodePubkeys, hb, hlen, hdec]
        simp
    · refine ⟨b.length, hlen, ?_⟩
      simp only [decodePubkeys, hb]
      simp [hlen]

/-- C6: with a parsed pubkey list of length `n`, a quorum below 0 or above
`n` makes `new` fail with the malformed-predicate error and no block is
produced; any block it does produce has a predicate quorum within
`[0, n]`. -/
theorem newBlock_quorum_invariant (quorum : Int) (hexList : List String)
    (ts : Nat) (pks : List (List Nat))
    (hdec : decodePubkeys hexList = .ok pks) :
    (quorum < 0 ∨ quorum > (pks.length : Int) →
      newBlock quorum hexList ts = .error .badQuorum) ∧
    (∀ blk, newBlock quorum hexList ts = .ok blk →
      0 ≤ blk.unsigned.header.nextPredicate.quorum ∧
      blk.unsigned.header.nextPredicate.quorum ≤ (pks.length : Int)) := by
  constructor
  · intro hq
    simp [newBlock, hdec, hq]
  · intro blk hblk
    simp only [newBlock, hdec] at hblk
    by_cases hq : quorum < 0 ∨ quorum > (pks.length : Int)
    · simp [hq] at hblk
    · simp only [hq, if_false] at hblk
      push_neg at hq
      obtain ⟨hq0, hqn⟩ := hq
      have := Except.ok.inj hblk
      subst this
      by_cases h0 : quorum = 0
      · simp [newInitialBlock, h0]
      · simp [newInitialBlock, h0]
        omega

/-- Witness for C6: quorum 1 with zero pubkeys is rejected. -/
theorem newBlock_quorum_invariant_witness :
    decodePubkeys [] = .ok [] ∧
    ((1 : Int) < 0 ∨ (1 : Int) > (([] : List (List Nat)).length : Int) →
      newBlock 1 [] 7 = .error .badQuorum) ∧
    (∀ blk, newBlock 1 [] 7 = .ok blk →
      0 ≤ blk.unsigned.header.nextPredicate.quorum ∧
      blk.unsigned.header.nextPredicate.quorum ≤
        (([] : List (List Nat)).length : Int)) :=
  ⟨rfl, (newBlock_quorum_invariant 1 [] 7 [] rfl).1,
    (newBlock_quorum_invariant 1 [] 7 [] rfl).2⟩

/-- C8: if some pubkey argument hex-decodes to a byte string whose length
is not 32 (and decoding itself succeeds everywhere), `new` fails with a
bad-pubkey-length error and produces no block. -/
theorem newBlock_bad_pubkey_length (quorum : Int) (hexList : List String)
    (ts : Nat)
    (h1 : ∀ s ∈ hexList, (hexDecode s).isSome)
    (h2 : ∃ s ∈ hexList, ∃ b, hexDecode s = some b ∧ b.length ≠ 32) :
    ∃ m, m ≠ 32 ∧
      newBlock quorum hexList ts = .error (.badPubkeyLength m) := by
  obtain ⟨m, hm, hdec⟩ := decodePubkeys_badLength hexList h1 h2
  exact ⟨m, hm, by simp [newBlock, hdec]⟩

/-- Witness for C8: a single one-byte pubkey argument. -/
theorem newBlock_bad_pubkey_length_witness :
    (∀ s ∈ ["00"], (hexDecode s).isSome) ∧
    (∃ s ∈ ["00"], ∃ b, hexDecode s = some b ∧ b.length ≠ 32) ∧
    ∃ m, m ≠ 32 ∧ newBlock 0 ["00"] 0 = .error (.badPubkeyLength m) :=
  ⟨by decide, ⟨"00", by simp, [0], by decide, by decide⟩,
    newBlock_bad_pubkey_length 0 ["00"] 0 (by decide)
      ⟨"00", by simp, [0], by decide, by decide⟩⟩

/-- C9: with quorum flag 0 and successfully decoded pubkeys, the created
block's predicate quorum equals the number of pubkeys, and it is 0 exactly
when there are no pubkeys. -/
theorem newBlock_zero_quorum_promoted (hexList : List String) (ts : Nat)
    (pks : List (List Nat))
    (hdec : decodePubkeys hexList = .ok pks) :
    ∃ blk, newBlock 0 hexList ts = .ok blk ∧
      blk.unsigned.header.nextPredicate.quorum = (pks.length : Int) ∧
      (blk.unsigned.header.nextPredicate.quorum = 0 ↔ pks = []) := by
  refine ⟨newInitialBlock pks (pks.length : Int) ts, ?_, ?_, ?_⟩
  · simp [newBlock, hdec]
  · simp [newInitialBlock]
  · simp [newInitialBlock, List.length_eq_zero]

/-- Witness for C9: one 32-byte (all-zero) pubkey gives quorum 1. -/
theorem newBlock_zero_quorum_promoted_witness :
    decodePubkeys
        ["0000000000000000000000000000000000000000000000000000000000000000"] =
      .ok [List.replicate 32 0] ∧
    ∃ blk,
      newBlock 0
          ["0000000000000000000000000000000000000000000000000000000000000000"]
          5 = .ok blk ∧
      blk.unsigned.header.nextPredicate.quorum =
        (([List.replicate 32 0] : List (List Nat)).length : Int) ∧
      (blk.unsigned.header.nextPredicate.quorum = 0 ↔
        ([List.replicate 32 0] : List (List Nat)) = []) :=
  ⟨rfl,
    newBlock_zero_quorum_promoted
      ["0000000000000000000000000000000000000000000000000000000000000000"]
      5 [List.replicate 32 0] rfl⟩

/-- A successful `collectSigs` holds, at each index, exactly the value the
callback returned for the corresponding list element. -/
theorem collectSigs_get (signerFn : Nat → Option (Option (List Nat)))
    (l : List Nat) (ys : List (Option (List Nat)))
    (h : collectSigs signerFn l = some ys) :
    ∀ i x, l.get? i = some x →
      ∃ y, signerFn x = some y ∧ ys.get? i = some y := by
  induction l generalizing ys with
  | nil =>
    intro i x hx
    simp at hx
  | cons a rest ih =>
    intro i x hx
    simp only [collectSigs] at h
    cases ha : signerFn a with
    | none => rw [ha] at h; simp at h
    | some s =>
      rw [ha] at h
      cases hrest : collectSigs signerFn rest with
      | none => rw [hrest] at h; simp at h
      | some restS =>
        rw [hrest] at h
        simp only at h
        obtain rfl := Option.some.inj h
        cases i with
        | zero =>
          simp at hx
          subst hx
          exact ⟨s, ha, rfl⟩
        | succ j =>
          simp only [List.get?] at hx ⊢
          exact ih restS hrest j x hx

/-- C3: in `sign`, for each index `i` of the previous predicate's pubkeys,
the signature slot is absent exactly when no private-key argument is
supplied at position `i`; otherwise it holds an ed25519 signature whose
payload is the content hash of the unsigned block header read from input.
The signed block keeps the input's unsigned part unchanged. -/
theorem sign_slots (ed : List Nat → List Nat → List Nat)
    (blockHash : BlockHeader → List Nat)
    (prev : BlockHeader) (keyArgs : List String) (b sb : Block)
    (hrun : signRun ed blockHash prev keyArgs b = some sb)
    (i : Nat) (hi : i < prev.nextPredicate.pubkeys.length) :
    sb.unsigned = b.unsigned ∧
    (keyArgs.getD i "" = "" → sb.arguments.get? i = some none) ∧
    (keyArgs.getD i "" ≠ "" →
      ∃ prv, hexDecode (keyArgs.getD i "") = some prv ∧
        sb.arguments.get? i =
          some (some (ed prv (blockHash b.unsigned.header)))) := by
  simp only [signRun, signBlock] at hrun
  cases hsigs :
      collectSigs
        (signerCallback ed keyArgs (blockHash b.unsigned.header))
        (List.range prev.nextPredicate.pubkeys.length) with
  | none => rw [hsigs] at hrun; simp at hrun
  | some sigs =>
    rw [hsigs] at hrun
    rw [Option.map_some'] at hrun
    obtain rfl := Option.some.inj hrun
    obtain ⟨y, hy, hget⟩ :=
      collectSigs_get _ _ sigs hsigs i i
        (by rw [List.get?_eq_getElem?, List.getElem?_range hi])
    refine ⟨rfl, ?_, ?_⟩
    · intro hempty
      simp only [signerCallback, hempty] at hy
      simp at hy
      subst hy
      exact hget
    · intro hne
      simp only [signerCallback] at hy
      rw [if_pos hne] at hy
      cases hdec : hexDecode (keyArgs.getD i "") with
      | none => rw [hdec] at hy; simp at hy
      | some prv =>
        rw [hdec] at hy
        obtain rfl := Option.some.inj hy
        exact ⟨prv, rfl, hget⟩

/-- Witness for C3: two pubkeys, a private key supplied at position 0 only,
checked at both indices. -/
theorem sign_slots_witness :
    (let pred : Predicate := ⟨1, 2, [[1], [2]]⟩
     let hdr : BlockHeader := ⟨3, 2, some [7], 2000, 0, 0, [], [], [], pred⟩
     let b : Block := ⟨⟨hdr, []⟩, []⟩
     let ed : List Nat → List Nat → List Nat := fun prv msg => prv ++ msg
     let bh : BlockHeader → List Nat := fun _ => [9]
     let sb : Block := ⟨⟨hdr, []⟩, [some [171, 9], none]⟩
     (sb.unsigned = b.unsigned ∧
      (["ab"].getD 1 "" = "" → sb.arguments.get? 1 = some none) ∧
      (["ab"].getD 1 "" ≠ "" →
        ∃ prv, hexDecode (["ab"].getD 1 "") = some prv ∧
          sb.arguments.get? 1 =
            some (some (ed prv (bh b.unsigned.header))))) ∧
     (sb.unsigned = b.unsigned ∧
      (["ab"].getD 0 "" = "" → sb.arguments.get? 0 = some none) ∧
      (["ab"].getD 0 "" ≠ "" →
        ∃ prv, hexDecode (["ab"].getD 0 "") = some prv ∧
          sb.arguments.get? 0 =
            some (some (ed prv (bh b.unsigned.header)))))) :=
  ⟨sign_slots (fun prv msg => prv ++ msg) (fun _ => [9])
      ⟨3, 1, none, 1000, 0, 0, [], [], [], ⟨1, 2, [[1], [2]]⟩⟩ ["ab"]
      ⟨⟨⟨3, 2, some [7], 2000, 0, 0, [], [], [], ⟨1, 2, [[1], [2]]⟩⟩, []⟩, []⟩
      ⟨⟨⟨3, 2, some [7], 2000, 0, 0, [], [], [], ⟨1, 2, [[1], [2]]⟩⟩, []⟩,
        [some [171, 9], none]⟩ rfl 1 (by decide),
    sign_slots (fun prv msg => prv ++ msg) (fun _ => [9])
      ⟨3, 1, none, 1000, 0, 0, [], [], [], ⟨1, 2, [[1], [2]]⟩⟩ ["ab"]
      ⟨⟨⟨3, 2, some [7], 2000, 0, 0, [], [], [], ⟨1, 2, [[1], [2]]⟩⟩, []⟩, []⟩
      ⟨⟨⟨3, 2, some [7], 2000, 0, 0, [], [], [], ⟨1, 2, [[1], [2]]⟩⟩, []⟩,
        [some [171, 9], none]⟩ rfl 0 (by decide)⟩

/-- The transaction loop appends its inputs, in order, to the session's
transaction list. -/
theorem buildLoop_txs (env : BuildEnv) (txs : List Tx)
    (st stF : BuilderState)
    (h : buildLoop env st txs = .ok stF) :
    stF.txs = st.txs ++ txs := by
  induction txs generalizing st with
  | nil =>
    simp only [buildLoop] at h
    obtain rfl := Except.ok.inj h
    simp
  | cons t ts ih =>
    simp only [buildLoop] at h
    cases hadd : bbAddTx env st t with
    | error e => rw [hadd] at h; simp at h
    | ok st2 =>
      rw [hadd] at h
      have h2 := ih st2 h
      simp only [bbAddTx] at hadd
      cases happ : env.applyTx st.snapshot t with
      | none => rw [happ] at hadd; simp at hadd
      | some p =>
        rw [happ] at hadd
        by_cases hc : env.ceiling < st.runlimit + p.2
        · simp [hc] at hadd
        · simp only [hc, if_false] at hadd
          obtain rfl := Except.ok.inj hadd
          simp only at h2
          simp [h2]

/-- C4: a `build` run adds one transaction per file argument, in argument
order — the finished block's transaction list, and the leaf sequence under
its transactions root, equal the given program order. -/
theorem build_tx_order (env : BuildEnv) (snap : Snapshot) (ts : Nat)
    (st0 stF : BuilderState) (txs : List Tx)
    (hstart : bbStart snap ts = .ok st0)
    (hloop : buildLoop env st0 txs = .ok stF) :
    stF.txs = txs ∧
    (bbBuild env stF).1.transactions = txs ∧
    (bbBuild env stF).1.header.transactionsRoot =
      env.merkleRoot (txs.map env.txHash) := by
  have h0 : st0.txs = [] := by
    simp only [bbStart] at hstart
    by_cases hts : ts ≤ snap.timestampMs
    · simp [hts] at hstart
    · simp only [hts, if_false] at hstart
      obtain rfl := Except.ok.inj hstart
      rfl
  have htx : stF.txs = txs := by
    have := buildLoop_txs env txs st0 stF hloop
    simp [h0] at this
    exact this
  exact ⟨htx, by simp [bbBuild, htx], by simp [bbBuild, htx]⟩

/-- A concrete environment for evaluating `build` runs: a trivial VM that
charges nothing and leaves the snapshot unchanged, with total serialization
and writing. -/
def plainEnv : BuildEnv :=
  { applyTx := fun s _ => some (s, 0),
    txHash := fun t => t.program,
    merkleRoot := fun ls => ls.flatten,
    blockBytes := fun _ => [],
    snapshotBytes := fun s => (s.data, none),
    writeFile := fun _ => none,
    parseTime := fun _ => some 5,
    ceiling := 100,
    nextPred := ⟨1, 0, []⟩ }

/-- Witness for C4: two transactions through the trivial environment. -/
theorem build_tx_order_witness :
    (let snap : Snapshot := ⟨[], [], 0, 0⟩
     let t1 : Tx := ⟨[1], 3, 10⟩
     let t2 : Tx := ⟨[2], 3, 10⟩
     let stF : BuilderState := ⟨snap, 5, 1, [t1, t2], 0⟩
     stF.txs = [t1, t2] ∧
     (bbBuild plainEnv stF).1.transactions = [t1, t2] ∧
     (bbBuild plainEnv stF).1.header.transactionsRoot =
       plainEnv.merkleRoot ([t1, t2].map plainEnv.txHash)) :=
  build_tx_order plainEnv ⟨[], [], 0, 0⟩ 5 ⟨⟨[], [], 0, 0⟩, 5, 1, [], 0⟩
    ⟨⟨[], [], 0, 0⟩, 5, 1, [⟨[1], 3, 10⟩, ⟨[2], 3, 10⟩], 0⟩
    [⟨[1], 3, 10⟩, ⟨[2], 3, 10⟩] rfl rfl

/-- C5: with an explicit `-time` value, the output of a `build` run does
not depend on the wall clock — so two runs on byte-identical snapshots,
identical transaction sequences and the same `-time` value produce
identical block output and identical snapshot-file output. -/
theorem build_deterministic (env : BuildEnv) (timeStr : String)
    (now1 now2 : Nat) (snapOutSet : Bool) (snap : Snapshot)
    (txs : List Tx) (h : timeStr ≠ "") :
    buildRun env timeStr now1 snapOutSet snap txs =
      buildRun env timeStr now2 snapOutSet snap txs := by
  simp [buildRun, h]

/-- Witness for C5: the trivial environment at two different clock
values. -/
theorem build_deterministic_witness :
    ("t" : String) ≠ "" ∧
    buildRun plainEnv "t" 0 false ⟨[], [], 0, 0⟩ [] =
      buildRun plainEnv "t" 99 false ⟨[], [], 0, 0⟩ [] :=
  ⟨by decide,
    build_deterministic plainEnv "t" 0 99 false ⟨[], [], 0, 0⟩ []
      (by decide)⟩

/-- An environment whose snapshot serialization always fails. -/
def snapBytesFailEnv : BuildEnv :=
  { plainEnv with
    snapshotBytes := fun _ => ([], some "snapshot serialization failed") }

/-- C7 (code bug): serializing the updated snapshot for `-snapout` fails,
yet the run completes successfully — at `block.go` line 93 the error
returned by `newSnapshot.Bytes()` is overwritten by the `WriteFile`
assignment on line 94 before it is ever checked, so this error is silently
ignored, contradicting the claim that every error is surfaced. -/
theorem build_snapout_bytes_error_ignored :
    (∀ s, (snapBytesFailEnv.snapshotBytes s).2 =
      some "snapshot serialization failed") ∧
    buildRun snapBytesFailEnv "" 5 true ⟨[], [], 0, 0⟩ [] =
      .ok ⟨[], some []⟩ :=
  ⟨fun _ => rfl, rfl⟩

end TxvmBlock
